import Mathlib

/-!
Verification of the fixed-capacity bump (arena) allocator in
`src/lib/nostd/sail_arena.c`.

The C code keeps three globals: `sail_arena_buffer` (a byte pointer),
`sail_arena_length` and `sail_arena_offset` (both `size_t`).  We embed the
global state as a structure `Arena` whose `buffer` field is the numeric base
address of the buffer.  All pointer and size arithmetic in the C code is done
in `uintptr_t`/`size_t`, i.e. modulo `2 ^ 64` on the modelled 64-bit target,
so the embedding reduces every intermediate result modulo `W = 2 ^ 64`.
The buffer contents (`mem`) are carried along only to show that no operation
touches them.
-/

/-- Machine word modulus: `size_t` and `uintptr_t` are 64 bits wide. -/
def W : Nat := 2 ^ 64

theorem W_eq : W = 18446744073709551616 := by norm_num [W]

/-- `uintptr_t` addition: wraps modulo `W`. -/
def wadd (a b : Nat) : Nat := (a + b) % W

/-- `uintptr_t` subtraction: wraps modulo `W` (faithful for `b ≤ W`). -/
def wsub (a b : Nat) : Nat := (a + (W - b)) % W

/-- The allocator's global state: base address of the buffer, its length,
the bump offset, and the (never inspected) buffer contents. -/
structure Arena where
  buffer : Nat
  length : Nat
  offset : Nat
  mem : List Nat
deriving DecidableEq

/-- `sail_arena_init(buffer, length)`: record the buffer and its length and
set the offset to zero.  The contents of the supplied buffer are whatever the
caller put there. -/
def sail_arena_init (buffer length : Nat) (mem : List Nat) : Arena :=
  { buffer := buffer, length := length, offset := 0, mem := mem }

/-- `sail_arena_reset()`: set the offset back to zero. -/
def sail_arena_reset (s : Arena) : Arena :=
  { s with offset := 0 }

/-- `sail_malloc_align(size, align)`: compute the absolute address of the
next free byte, round it up to the next multiple of `align` using the mask
`align - 1`, convert back to a buffer-relative offset, and either hand out
the pointer and bump the offset (when `offset + size <= length` holds in
machine arithmetic) or return `NULL` (`none`) leaving the state unchanged. -/
def sail_malloc_align (size align : Nat) (s : Arena) : Option Nat × Arena :=
  let offset0 := wadd s.buffer s.offset
  let mask := wsub align 1
  let modulo := offset0 &&& mask
  let offset1 := if modulo ≠ 0 then wadd offset0 (wsub align modulo) else offset0
  let offset2 := wsub offset1 s.buffer
  if wadd offset2 size ≤ s.length then
    (some (wadd s.buffer offset2), { s with offset := wadd offset2 size })
  else
    (none, s)

/-- The build-time default alignment `SAIL_ARENA_ALIGNMENT` (4 unless
overridden). -/
def SAIL_ARENA_ALIGNMENT : Nat := 4

/-- `sail_malloc(size)`: allocate with the default alignment. -/
def sail_malloc (size : Nat) (s : Arena) : Option Nat × Arena :=
  sail_malloc_align size SAIL_ARENA_ALIGNMENT s

/-- `sail_free(ptr)`: a no-op. -/
def sail_free (_ptr : Nat) (s : Arena) : Arena := s

/-- The documented state invariant: `0 <= offset <= length`. -/
def ArenaInv (s : Arena) : Prop := 0 ≤ s.offset ∧ s.offset ≤ s.length

instance (s : Arena) : Decidable (ArenaInv s) := by
  unfold ArenaInv; infer_instance

/-- Padding needed to round `addr` up to the next multiple of `align`
(the spec's step 2: if `addr mod align ≠ 0`, add `align - addr mod align`). -/
def alignPad (addr align : Nat) : Nat := (align - addr % align) % align

/-- The mathematically rounded buffer-relative offset of the spec:
round `buffer + offset` up to a multiple of `align`, then subtract the
base back off. -/
def roundedOffset (s : Arena) (align : Nat) : Nat :=
  s.offset + alignPad (s.buffer + s.offset) align

theorem two_pow_le_of_le {k : Nat} (hk : k ≤ 63) : 2 ^ k ≤ 9223372036854775808 := by
  calc 2 ^ k ≤ 2 ^ 63 := Nat.pow_le_pow_right (by norm_num) hk
  _ = 9223372036854775808 := by norm_num

theorem two_pow_dvd_W {k : Nat} (hk : k ≤ 63) : 2 ^ k ∣ W := by
  unfold W; exact pow_dvd_pow 2 (le_trans hk (by norm_num))

theorem wsub_one_eq {k : Nat} (hk : k ≤ 63) : wsub (2 ^ k) 1 = 2 ^ k - 1 := by
  have h1 : 0 < 2 ^ k := Nat.two_pow_pos k
  have h2 := two_pow_le_of_le hk
  unfold wsub
  rw [W_eq] at *
  omega

theorem land_mask_eq (n : Nat) {k : Nat} (hk : k ≤ 63) :
    n % W &&& wsub (2 ^ k) 1 = n % 2 ^ k := by
  rw [wsub_one_eq hk, Nat.and_pow_two_sub_one_eq_mod]
  exact Nat.mod_mod_of_dvd n (two_pow_dvd_W hk)


theorem wadd_land_mask (a b : Nat) {k : Nat} (hk : k ≤ 63) :
    wadd a b &&& wsub (2 ^ k) 1 = (a + b) % 2 ^ k := by
  unfold wadd; exact land_mask_eq (a + b) hk

theorem wadd_mod_left (a b : Nat) : wadd (a % W) b = (a + b) % W := by
  unfold wadd; rw [W_eq]; omega

theorem wadd_mod_right (a b : Nat) : wadd a (b % W) = (a + b) % W := by
  unfold wadd; rw [W_eq]; omega

/-- The buffer-relative candidate offset computed by `sail_malloc_align`
(local variable `offset` just before the capacity test) equals the spec's
`roundedOffset` reduced modulo `W`. -/
theorem inner_offset_eq (s : Arena) (k : Nat) (hb : s.buffer < W) (hk : k ≤ 63) :
    wsub (if wadd s.buffer s.offset &&& wsub (2 ^ k) 1 ≠ 0
        then wadd (wadd s.buffer s.offset)
          (wsub (2 ^ k) (wadd s.buffer s.offset &&& wsub (2 ^ k) 1))
        else wadd s.buffer s.offset) s.buffer
      = roundedOffset s (2 ^ k) % W := by
  have hA0 : 0 < 2 ^ k := Nat.two_pow_pos k
  have hA63 := two_pow_le_of_le hk
  rw [wadd_land_mask s.buffer s.offset hk]
  by_cases hm : (s.buffer + s.offset) % 2 ^ k = 0
  · rw [hm, if_neg (by simp)]
    have hro : roundedOffset s (2 ^ k) = s.offset := by
      unfold roundedOffset alignPad
      rw [hm, Nat.sub_zero, Nat.mod_self, Nat.add_zero]
    rw [hro]
    unfold wsub wadd
    rw [W_eq] at *
    omega
  · rw [if_pos hm]
    have hmlt : (s.buffer + s.offset) % 2 ^ k < 2 ^ k := Nat.mod_lt _ hA0
    have hro : roundedOffset s (2 ^ k) =
        s.offset + (2 ^ k - (s.buffer + s.offset) % 2 ^ k) := by
      unfold roundedOffset alignPad
      rw [Nat.mod_eq_of_lt (by omega)]
    rw [hro]
    unfold wsub wadd
    rw [W_eq] at hb ⊢
    generalize hgen : (s.buffer + s.offset) % 2 ^ k = m at hmlt ⊢
    generalize 2 ^ k = A at hA0 hA63 hmlt ⊢
    omega

/-- Characterization of `sail_malloc_align` at a power-of-two alignment, for
a representable base address: the candidate offset is the spec's
`roundedOffset` reduced modulo `W`, the success test compares
`(roundedOffset + size) % W` against `length`, and on success the returned
pointer is `buffer + roundedOffset` modulo `W`. -/
theorem sail_malloc_align_eq (s : Arena) (size k : Nat)
    (hb : s.buffer < W) (hk : k ≤ 63) :
    sail_malloc_align size (2 ^ k) s =
      if (roundedOffset s (2 ^ k) + size) % W ≤ s.length then
        (some ((s.buffer + roundedOffset s (2 ^ k)) % W),
         { s with offset := (roundedOffset s (2 ^ k) + size) % W })
      else (none, s) := by
  simp only [sail_malloc_align]
  rw [inner_offset_eq s k hb hk, wadd_mod_left, wadd_mod_right]

theorem alignPad_lt (addr align : Nat) (h : 0 < align) : alignPad addr align < align :=
  Nat.mod_lt _ h

theorem add_alignPad_mod (addr align : Nat) (h : 0 < align) :
    (addr + alignPad addr align) % align = 0 := by
  unfold alignPad
  have h1 : addr % align < align := Nat.mod_lt _ h
  by_cases hm : addr % align = 0
  · rw [hm, Nat.sub_zero, Nat.mod_self, Nat.add_zero, hm]
  · have h3 : (align - addr % align) % align = align - addr % align :=
      Nat.mod_eq_of_lt (by omega)
    rw [h3, Nat.add_mod, h3]
    have h2 : addr % align + (align - addr % align) = align := by omega
    rw [h2, Nat.mod_self]

/-- Claim C2: for every successful `sail_malloc_align(size, align)` call with
`align = 2 ^ k` a power of two, the returned address is a multiple of
`align`. -/
theorem returned_address_aligned (s : Arena) (size k ptr : Nat) (t : Arena)
    (hb : s.buffer < W) (hk : k ≤ 63)
    (h : sail_malloc_align size (2 ^ k) s = (some ptr, t)) :
    ptr % 2 ^ k = 0 := by
  rw [sail_malloc_align_eq s size k hb hk] at h
  split at h
  · simp only [Prod.mk.injEq, Option.some.injEq] at h
    rw [← h.1, Nat.mod_mod_of_dvd _ (two_pow_dvd_W hk)]
    unfold roundedOffset
    rw [← Nat.add_assoc]
    exact add_alignPad_mod (s.buffer + s.offset) (2 ^ k) (Nat.two_pow_pos k)
  · exact absurd h (by simp)

theorem returned_address_aligned_witness :
    sail_malloc_align 1 (2 ^ 2) (sail_arena_init 4 8 []) =
      (some 4, { buffer := 4, length := 8, offset := 1, mem := [] }) ∧
    4 % 2 ^ 2 = 0 :=
  ⟨by decide, returned_address_aligned (sail_arena_init 4 8 []) 1 2 4
    { buffer := 4, length := 8, offset := 1, mem := [] }
    (by decide) (by decide) (by decide)⟩

/-- Claim C4: from a state satisfying the invariant, when the spec's rounded
offset plus the requested size fits below `length`, the allocation succeeds,
returns the view based at `buffer + roundedOffset`, and advances `offset` to
`roundedOffset + size`. -/
theorem allocate_aligned_success (s : Arena) (size k : Nat)
    (hb : s.buffer < W) (hlen : s.length < W) (hoff : s.offset ≤ s.length)
    (hk : k ≤ 63)
    (hfit : roundedOffset s (2 ^ k) + size ≤ s.length) :
    sail_malloc_align size (2 ^ k) s =
      (some (wadd s.buffer (roundedOffset s (2 ^ k))),
       { s with offset := roundedOffset s (2 ^ k) + size }) := by
  rw [sail_malloc_align_eq s size k hb hk]
  have h1 : (roundedOffset s (2 ^ k) + size) % W = roundedOffset s (2 ^ k) + size :=
    Nat.mod_eq_of_lt (by rw [W_eq] at hlen ⊢; omega)
  rw [h1, if_pos hfit]
  unfold wadd
  rfl

theorem allocate_aligned_success_witness :
    (5 : Nat) < W ∧ (8 : Nat) < W ∧ (1 : Nat) ≤ 8 ∧ (2 : Nat) ≤ 63 ∧
    roundedOffset { buffer := 5, length := 8, offset := 1, mem := [] } (2 ^ 2) + 2 ≤ 8 ∧
    sail_malloc_align 2 (2 ^ 2) { buffer := 5, length := 8, offset := 1, mem := [] } =
      (some (wadd 5 (roundedOffset { buffer := 5, length := 8, offset := 1, mem := [] } (2 ^ 2))),
       { buffer := 5, length := 8,
         offset := roundedOffset { buffer := 5, length := 8, offset := 1, mem := [] } (2 ^ 2) + 2,
         mem := [] }) :=
  ⟨by decide, by decide, by decide, by decide, by decide,
   allocate_aligned_success { buffer := 5, length := 8, offset := 1, mem := [] } 2 2
     (by decide) (by decide) (by decide) (by decide) (by decide)⟩

/-- Claim C5: the invariant `0 ≤ offset ≤ length` holds after `init` and is
preserved by `sail_malloc_align` (power-of-two alignment, any size, machine
arithmetic modulo `2 ^ 64`), `sail_malloc`, `sail_arena_reset` and
`sail_free`. -/
theorem arena_invariant_preserved :
    (∀ buffer length mem, ArenaInv (sail_arena_init buffer length mem)) ∧
    (∀ (s : Arena) (size align : Nat), (∃ k, k ≤ 63 ∧ align = 2 ^ k) →
      ArenaInv s → ArenaInv (sail_malloc_align size align s).2) ∧
    (∀ (s : Arena) (size : Nat), ArenaInv s → ArenaInv (sail_malloc size s).2) ∧
    (∀ s : Arena, ArenaInv s → ArenaInv (sail_arena_reset s)) ∧
    (∀ (s : Arena) (ptr : Nat), ArenaInv s → ArenaInv (sail_free ptr s)) := by
  have hma : ∀ (s : Arena) (size align : Nat),
      ArenaInv s → ArenaInv (sail_malloc_align size align s).2 := by
    intro s size align h
    simp only [sail_malloc_align]
    split_ifs with h1 h2 h3
    · exact ⟨Nat.zero_le _, h2⟩
    · exact h
    · exact ⟨Nat.zero_le _, h3⟩
    · exact h
  exact ⟨fun b l m => ⟨Nat.zero_le _, Nat.zero_le _⟩,
    fun s size align _ h => hma s size align h,
    fun s size h => hma s size SAIL_ARENA_ALIGNMENT h,
    fun s _ => ⟨Nat.zero_le _, Nat.zero_le _⟩,
    fun s p h => h⟩

theorem arena_invariant_preserved_witness :
    ArenaInv (sail_arena_init 0 8 []) ∧
    ArenaInv (sail_malloc_align (2 ^ 64 - 2) 1 { buffer := 0, length := 8, offset := 3, mem := [] }).2 ∧
    ArenaInv (sail_arena_reset { buffer := 0, length := 8, offset := 5, mem := [] }) :=
  ⟨arena_invariant_preserved.1 0 8 [],
   arena_invariant_preserved.2.1 { buffer := 0, length := 8, offset := 3, mem := [] }
     (2 ^ 64 - 2) 1 ⟨0, by decide, by decide⟩ (by decide),
   arena_invariant_preserved.2.2.2.1 { buffer := 0, length := 8, offset := 5, mem := [] }
     (by decide)⟩

/-- Claim C6: `sail_arena_reset` sets `offset` to 0 and leaves the buffer
base, the length and the buffer contents untouched. -/
theorem reset_only_zeroes_offset (s : Arena) :
    sail_arena_reset s =
      { buffer := s.buffer, length := s.length, offset := 0, mem := s.mem } := rfl

/-- Claim C7: `sail_malloc` is exactly `sail_malloc_align` at the build-time
default alignment, which is 4. -/
theorem malloc_uses_default_alignment (s : Arena) (size : Nat) :
    sail_malloc size s = sail_malloc_align size SAIL_ARENA_ALIGNMENT s ∧
    SAIL_ARENA_ALIGNMENT = 4 :=
  ⟨rfl, rfl⟩

theorem sail_malloc_align_four (s : Arena) (size : Nat) (hb : s.buffer < W) :
    sail_malloc_align size 4 s =
      if (roundedOffset s 4 + size) % W ≤ s.length then
        (some ((s.buffer + roundedOffset s 4) % W),
         { s with offset := (roundedOffset s 4 + size) % W })
      else (none, s) := by
  rw [show (4 : Nat) = 2 ^ 2 by norm_num]
  exact sail_malloc_align_eq s size 2 hb (by norm_num)

/-- Claim C8: an arena over an 8-byte buffer based at a 4-aligned address `B`:
`allocate_aligned(3,4)` returns the region at `B` and sets the offset to 3,
`allocate_aligned(4,4)` pads to offset 4, returns the region at `B + 4` and
sets the offset to 8, a following `allocate(1)` fails leaving the offset at
8, and after `reset` the first allocation repeats verbatim. -/
theorem eight_byte_scenario (B : Nat) (mem : List Nat)
    (hB4 : B % 4 = 0) (hBW : B + 8 ≤ W) :
    sail_malloc_align 3 4 (sail_arena_init B 8 mem) =
      (some B, { buffer := B, length := 8, offset := 3, mem := mem }) ∧
    sail_malloc_align 4 4 { buffer := B, length := 8, offset := 3, mem := mem } =
      (some (B + 4), { buffer := B, length := 8, offset := 8, mem := mem }) ∧
    sail_malloc 1 { buffer := B, length := 8, offset := 8, mem := mem } =
      (none, { buffer := B, length := 8, offset := 8, mem := mem }) ∧
    sail_malloc_align 3 4
        (sail_arena_reset { buffer := B, length := 8, offset := 8, mem := mem }) =
      (some B, { buffer := B, length := 8, offset := 3, mem := mem }) := by
  have hB : B < W := by rw [W_eq] at *; omega
  refine ⟨?_, ?_, ?_, ?_⟩
  · show sail_malloc_align 3 4 { buffer := B, length := 8, offset := 0, mem := mem } = _
    rw [sail_malloc_align_four _ 3 hB]
    have r0 : roundedOffset { buffer := B, length := 8, offset := 0, mem := mem } 4 = 0 := by
      simp only [roundedOffset, alignPad]; omega
    rw [r0]
    rw [W_eq] at hB ⊢
    simp
    all_goals omega
  · rw [sail_malloc_align_four _ 4 hB]
    have r1 : roundedOffset { buffer := B, length := 8, offset := 3, mem := mem } 4 = 4 := by
      simp only [roundedOffset, alignPad]; omega
    rw [r1]
    rw [W_eq] at hBW ⊢
    simp
    all_goals omega
  · show sail_malloc_align 1 4 { buffer := B, length := 8, offset := 8, mem := mem } = _
    rw [sail_malloc_align_four _ 1 hB]
    have r2 : roundedOffset { buffer := B, length := 8, offset := 8, mem := mem } 4 = 8 := by
      simp only [roundedOffset, alignPad]; omega
    rw [r2]
    rw [W_eq] at hB ⊢
    simp
  · show sail_malloc_align 3 4 { buffer := B, length := 8, offset := 0, mem := mem } = _
    rw [sail_malloc_align_four _ 3 hB]
    have r3 : roundedOffset { buffer := B, length := 8, offset := 0, mem := mem } 4 = 0 := by
      simp only [roundedOffset, alignPad]; omega
    rw [r3]
    rw [W_eq] at hB ⊢
    simp
    all_goals omega

theorem eight_byte_scenario_witness :
    (4 : Nat) % 4 = 0 ∧ (4 : Nat) + 8 ≤ W ∧
    sail_malloc_align 3 4 (sail_arena_init 4 8 []) =
      (some 4, { buffer := 4, length := 8, offset := 3, mem := [] }) :=
  ⟨by decide, by decide, (eight_byte_scenario 4 [] (by decide) (by decide)).1⟩

/-- Claim C9: a zero-size allocation succeeds (returns a pointer, not the
`NULL` failure indicator) whenever the rounded offset is at most `length`;
in particular with the arena exactly full and the current address already
aligned it succeeds, returns the one-past-end pointer `buffer + length`, and
leaves the state unchanged. -/
theorem zero_size_allocation_succeeds (s : Arena) (k : Nat)
    (hb : s.buffer < W) (hlen : s.length < W) (hoff : s.offset ≤ s.length)
    (hk : k ≤ 63)
    (hfit : roundedOffset s (2 ^ k) ≤ s.length) :
    sail_malloc_align 0 (2 ^ k) s =
      (some (wadd s.buffer (roundedOffset s (2 ^ k))),
       { s with offset := roundedOffset s (2 ^ k) }) ∧
    (s.offset = s.length → (s.buffer + s.offset) % 2 ^ k = 0 →
      sail_malloc_align 0 (2 ^ k) s = (some (wadd s.buffer s.length), s)) := by
  have h1 : (roundedOffset s (2 ^ k) + 0) % W = roundedOffset s (2 ^ k) := by
    rw [Nat.add_zero]
    exact Nat.mod_eq_of_lt (by rw [W_eq] at hlen ⊢; omega)
  have hcall : sail_malloc_align 0 (2 ^ k) s =
      (some ((s.buffer + roundedOffset s (2 ^ k)) % W),
       { s with offset := roundedOffset s (2 ^ k) }) := by
    rw [sail_malloc_align_eq s 0 k hb hk, h1, if_pos hfit]
  constructor
  · rw [hcall]; rfl
  · intro he ha
    have hro : roundedOffset s (2 ^ k) = s.length := by
      unfold roundedOffset alignPad
      rw [ha, Nat.sub_zero, Nat.mod_self, Nat.add_zero, he]
    rw [hcall, hro]
    have hst : ({ s with offset := s.length } : Arena) = s := by
      obtain ⟨b, l, o, m⟩ := s
      simp_all
    rw [hst]
    rfl

theorem zero_size_allocation_succeeds_witness :
    (0 : Nat) < W ∧ (8 : Nat) < W ∧ (8 : Nat) ≤ 8 ∧ (0 : Nat) ≤ 63 ∧
    roundedOffset { buffer := 0, length := 8, offset := 8, mem := [] } (2 ^ 0) ≤ 8 ∧
    sail_malloc_align 0 (2 ^ 0) { buffer := 0, length := 8, offset := 8, mem := [] } =
      (some (wadd 0 (roundedOffset { buffer := 0, length := 8, offset := 8, mem := [] } (2 ^ 0))),
       { buffer := 0, length := 8,
         offset := roundedOffset { buffer := 0, length := 8, offset := 8, mem := [] } (2 ^ 0),
         mem := [] }) :=
  ⟨by decide, by decide, by decide, by decide, by decide,
   (zero_size_allocation_succeeds { buffer := 0, length := 8, offset := 8, mem := [] } 0
     (by decide) (by decide) (by decide) (by decide) (by decide)).1⟩

/-- Claim C10 (counterexample): at alignment 1, from `offset = 3` in an
8-byte arena, the call with `size = 2 ^ 64 - 2` succeeds (the capacity
comparison wraps), and the new offset is `(3 + (2 ^ 64 - 2)) % 2 ^ 64 = 1`,
not the claimed `old offset + size`. -/
theorem align_one_new_offset_counterexample :
    sail_malloc_align (2 ^ 64 - 2) 1 { buffer := 0, length := 8, offset := 3, mem := [] } =
      (some 3, { buffer := 0, length := 8, offset := 1, mem := [] }) ∧
    (1 : Nat) ≠ 3 + (2 ^ 64 - 2) := by decide

/-- Claim C10 (amended): with alignment 1 no padding is ever consumed: the
call either fails leaving the state unchanged, or succeeds with the returned
region starting exactly at the current offset and the new offset equal to
`(offset + size) % 2 ^ 64`. -/
theorem align_one_no_padding (s : Arena) (size : Nat) (hb : s.buffer < W) :
    sail_malloc_align size 1 s =
      if (s.offset + size) % W ≤ s.length then
        (some (wadd s.buffer s.offset), { s with offset := (s.offset + size) % W })
      else (none, s) := by
  have h := sail_malloc_align_eq s size 0 hb (by norm_num)
  have hro : roundedOffset s (2 ^ 0) = s.offset := by
    simp [roundedOffset, alignPad, Nat.mod_one]
  rw [hro, pow_zero] at h
  rw [h]
  rfl

theorem align_one_no_padding_witness :
    (0 : Nat) < W ∧
    sail_malloc_align 2 1 { buffer := 0, length := 8, offset := 5, mem := [] } =
      (if ((5 : Nat) + 2) % W ≤ 8 then
        (some (wadd 0 5), { buffer := 0, length := 8, offset := (5 + 2) % W, mem := [] })
       else (none, { buffer := 0, length := 8, offset := 5, mem := [] })) :=
  ⟨by decide,
   align_one_no_padding { buffer := 0, length := 8, offset := 5, mem := [] } 2 (by decide)⟩

/-- Claim C3 (divergence witness): at state `offset = 4`, `length = 8`, the
request `sail_malloc_align (2 ^ 64 - 1) 1` has rounded offset 4, and
`4 + (2 ^ 64 - 1)` exceeds the length 8, so the spec requires a `NULL`
result with the state unchanged; the code's wrapped capacity comparison
`(4 + (2 ^ 64 - 1)) % 2 ^ 64 = 3 ≤ 8` instead accepts the request, returning
a pointer and moving the offset to 3. -/
theorem out_of_space_not_signalled_on_overflow :
    sail_malloc_align (2 ^ 64 - 1) 1 { buffer := 0, length := 8, offset := 4, mem := [] } =
      (some 4, { buffer := 0, length := 8, offset := 3, mem := [] }) ∧
    roundedOffset { buffer := 0, length := 8, offset := 4, mem := [] } 1 + (2 ^ 64 - 1) > 8 := by
  decide

/-- Claim C1 (divergence witness): after `init` with an 8-byte buffer at
base 0, the calls `sail_malloc_align 3 1`, `sail_malloc_align (2 ^ 64 - 2) 1`
and `sail_malloc_align 2 1` all succeed, returning regions starting at
offsets 0, 3 and 1.  The second region `[3, 3 + (2 ^ 64 - 2))` extends past
`length = 8`, and byte 1 lies both in the first region `[0, 3)` and in the
third region `[1, 3)`, so the returned regions are neither pairwise disjoint
nor contained in `[0, length)`: the capacity comparison wraps modulo
`2 ^ 64`. -/
theorem allocation_overlap_on_overflow :
    sail_malloc_align 3 1 (sail_arena_init 0 8 []) =
      (some 0, { buffer := 0, length := 8, offset := 3, mem := [] }) ∧
    sail_malloc_align (2 ^ 64 - 2) 1 { buffer := 0, length := 8, offset := 3, mem := [] } =
      (some 3, { buffer := 0, length := 8, offset := 1, mem := [] }) ∧
    sail_malloc_align 2 1 { buffer := 0, length := 8, offset := 1, mem := [] } =
      (some 1, { buffer := 0, length := 8, offset := 3, mem := [] }) ∧
    ¬(3 + (2 ^ 64 - 2) ≤ 8) ∧ ((1 : Nat) < 0 + 3 ∧ 1 ≤ 1 ∧ 1 < 1 + 2) := by
  decide
